import Mathlib

/-!
Shallow embedding of the request-dispatch core of the scraping gateway
(priority queue, error classifier, account store parser, account-health
state machine, dispatcher retry loop and concurrency counter), translated
from the TypeScript sources, together with theorems settling the spec
claims about them.
-/

/-! ### Error classifier (src/common/errors.ts) -/

/-- The `ErrorType` enum from src/common/errors.ts. -/
inductive ErrorType where
  | TIMEOUT
  | NETWORK
  | RATE_LIMIT
  | AUTH
  | NOT_FOUND
  | ACCOUNT_LOCKED
  | UNKNOWN
deriving DecidableEq, Repr

/-- Whether `pat` occurs at the head of `s` (character-list version). -/
def leadsWith : List Char → List Char → Bool
  | [], _ => true
  | _ :: _, [] => false
  | p :: ps, c :: cs => p == c && leadsWith ps cs

/-- Whether `pat` occurs somewhere in `s` (character-list version). -/
def occursInList (pat : List Char) : List Char → Bool
  | [] => pat.isEmpty
  | c :: cs => leadsWith pat (c :: cs) || occursInList pat cs

/-- JavaScript `s.includes(pat)` for strings. -/
def strIncludes (s pat : String) : Bool :=
  occursInList pat.data s.data

/-- JavaScript `s.toLowerCase()`, mapped character-wise. -/
def strToLower (s : String) : String :=
  ⟨s.data.map Char.toLower⟩

/-- Function `classifyError` from src/common/errors.ts: lowercase the message and apply
the ordered substring rules, first match wins. -/
def classifyError (message : String) : ErrorType :=
  let m := strToLower message
  if strIncludes m "timeout" || strIncludes m "timed out" then
    .TIMEOUT
  else if strIncludes m "network" || strIncludes m "fetch failed" ||
      strIncludes m "connection" || strIncludes m "socket" ||
      strIncludes m "econnreset" || strIncludes m "enotfound" then
    .NETWORK
  else if strIncludes m "rate limit" || strIncludes m "too many requests" ||
      strIncludes m "429" then
    .RATE_LIMIT
  else if strIncludes m "unauthorized" || strIncludes m "401" ||
      strIncludes m "authentication failed" ||
      (strIncludes m "status" && strIncludes m "403") then
    .AUTH
  else if strIncludes m "not found" || strIncludes m "404" then
    .NOT_FOUND
  else if strIncludes m "locked" || strIncludes m "suspended" ||
      strIncludes m "verify your identity" then
    .ACCOUNT_LOCKED
  else
    .UNKNOWN

/-- Function `isTransientError` from src/common/errors.ts. -/
def isTransientError (errorType : ErrorType) : Bool :=
  errorType == .TIMEOUT || errorType == .NETWORK || errorType == .UNKNOWN

/-- Function `errorTypeToHttpStatus` from src/common/errors.ts. -/
def errorTypeToHttpStatus (errorType : ErrorType) : Nat :=
  match errorType with
  | .RATE_LIMIT => 429
  | .AUTH => 401
  | .NOT_FOUND => 404
  | .ACCOUNT_LOCKED => 503
  | .TIMEOUT => 502
  | .NETWORK => 502
  | .UNKNOWN => 500

/-! ### Character-level string operations

The JS string primitives used by the sources (`split` on a one-character
separator, `trim`, `startsWith`, `Array.prototype.join`) are embedded over
the string's character list so that they compute by kernel reduction. -/

/-- JavaScript `s.split(sep)` for a one-character separator, on char lists.
`[]` splits to `[[]]`, matching JS where `"".split(":") = [""]`. -/
def splitListOn (sep : Char) : List Char → List (List Char)
  | [] => [[]]
  | c :: cs =>
      if c = sep then [] :: splitListOn sep cs
      else
        match splitListOn sep cs with
        | [] => [[c]]
        | h :: t => (c :: h) :: t

/-- JavaScript `s.split(sep)` for a one-character separator. -/
def strSplit (s : String) (sep : Char) : List String :=
  (splitListOn sep s.data).map (fun l => ⟨l⟩)

/-- JavaScript `s.trim()`: drop whitespace from both ends. -/
def strTrim (s : String) : String :=
  ⟨((s.data.dropWhile Char.isWhitespace).reverse.dropWhile
      Char.isWhitespace).reverse⟩

/-- JavaScript `s.startsWith(pat)`. -/
def strStartsWith (s pat : String) : Bool :=
  leadsWith pat.data s.data

/-- JavaScript `array.join(sep)` for a one-character separator. -/
def strJoin (sep : Char) : List String → String
  | [] => ""
  | [x] => x
  | x :: y :: xs => x ++ ⟨[sep]⟩ ++ strJoin sep (y :: xs)

/-! ### Priority queue (src/common/queue.ts) -/

/-- The `RequestPriority` enum from src/common/queue.ts. -/
inductive RequestPriority where
  | HIGH
  | MEDIUM
  | LOW
deriving DecidableEq, Repr

/-- The numeric value of the enum members: HIGH=0, MEDIUM=1, LOW=2. -/
def RequestPriority.val : RequestPriority → Nat
  | .HIGH => 0
  | .MEDIUM => 1
  | .LOW => 2

/-- A `QueuedRequest` as it matters for ordering: its priority and its
enqueue timestamp (`Date.now()` at admission). The thunk and the promise
callbacks are opaque to the ordering claims. -/
structure QueuedRequest where
  priority : RequestPriority
  timestamp : Nat
deriving DecidableEq, Repr

/-- The JS comparison used by the insertion scan in `PriorityQueue.enqueue`:
`priority < items[i].priority || (priority === items[i].priority &&
timestamp < items[i].timestamp)`. -/
def lexLt (a b : QueuedRequest) : Prop :=
  a.priority.val < b.priority.val ∨
    (a.priority.val = b.priority.val ∧ a.timestamp < b.timestamp)

/-- The corresponding non-strict order (used to state sortedness). -/
def lexLe (a b : QueuedRequest) : Prop :=
  a.priority.val < b.priority.val ∨
    (a.priority.val = b.priority.val ∧ a.timestamp ≤ b.timestamp)

instance (a b : QueuedRequest) : Decidable (lexLt a b) := by
  unfold lexLt; infer_instance

instance (a b : QueuedRequest) : Decidable (lexLe a b) := by
  unfold lexLe; infer_instance

/-- The insertion scan of `PriorityQueue.enqueue`: find the first index whose
element is strictly greater in (priority, timestamp) order and splice the new
request in before it; otherwise append at the end. -/
def insertReq (r : QueuedRequest) : List QueuedRequest → List QueuedRequest
  | [] => [r]
  | x :: xs => if lexLt r x then r :: x :: xs else x :: insertReq r xs

/-- Result of `PriorityQueue.enqueue`: the updated item list and either
acceptance or the synchronous rejection message. -/
structure EnqueueResult where
  items : List QueuedRequest
  outcome : Except String Unit
deriving Repr

/-- Method `PriorityQueue.enqueue` from src/common/queue.ts: reject synchronously
with "Request queue is full" when `items.length >= maxSize` (leaving the
items untouched), otherwise splice the request in at the insertion point. -/
def PriorityQueue.enqueue (maxSize : Nat) (items : List QueuedRequest)
    (r : QueuedRequest) : EnqueueResult :=
  if items.length ≥ maxSize then
    ⟨items, .error "Request queue is full"⟩
  else
    ⟨insertReq r items, .ok ()⟩

/-- Method `PriorityQueue.dequeue` from src/common/queue.ts: `items.shift()` —
return the head (if any) and the rest. -/
def PriorityQueue.dequeue (items : List QueuedRequest) :
    Option QueuedRequest × List QueuedRequest :=
  (items.head?, items.tail)

/-- One observable mutation of the queue's item list. -/
inductive QueueStep (maxSize : Nat) :
    List QueuedRequest → List QueuedRequest → Prop
  | enqueue (items : List QueuedRequest) (r : QueuedRequest) :
      QueueStep maxSize items (PriorityQueue.enqueue maxSize items r).items
  | dequeue (items : List QueuedRequest) :
      QueueStep maxSize items (PriorityQueue.dequeue items).2

/-- Queue states reachable from the empty queue by enqueue/dequeue steps. -/
inductive QueueReachable (maxSize : Nat) : List QueuedRequest → Prop
  | init : QueueReachable maxSize []
  | step {s s' : List QueuedRequest} : QueueReachable maxSize s →
      QueueStep maxSize s s' → QueueReachable maxSize s'

theorem lexLe_of_not_lexLt {a b : QueuedRequest} (h : ¬ lexLt a b) :
    lexLe b a := by
  unfold lexLt at h
  unfold lexLe
  omega

theorem lexLe_refl (a : QueuedRequest) : lexLe a a := by
  unfold lexLe; omega

/-- Lemma: `insertReq` produces a permutation of consing the new element. -/
theorem perm_insertReq (r : QueuedRequest) :
    ∀ l : List QueuedRequest, (insertReq r l).Perm (r :: l)
  | [] => List.Perm.refl _
  | x :: xs => by
    unfold insertReq
    by_cases hlt : lexLt r x
    · rw [if_pos hlt]
    · rw [if_neg hlt]
      exact ((perm_insertReq r xs).cons x).trans (List.Perm.swap r x xs)

theorem sorted_insertReq (r : QueuedRequest) :
    ∀ l : List QueuedRequest, l.Sorted lexLe → (insertReq r l).Sorted lexLe
  | [], _ => by simp [insertReq]
  | x :: xs, h => by
    rw [List.sorted_cons] at h
    obtain ⟨hx, hxs⟩ := h
    unfold insertReq
    by_cases hlt : lexLt r x
    · rw [if_pos hlt, List.sorted_cons]
      refine ⟨?_, by rw [List.sorted_cons]; exact ⟨hx, hxs⟩⟩
      intro b hb
      rcases List.mem_cons.mp hb with rfl | hb
      · exact Or.elim hlt (fun h => Or.inl h) (fun h => Or.inr ⟨h.1, Nat.le_of_lt h.2⟩)
      · have hxb := hx b hb
        have hrx : lexLe r x :=
          Or.elim hlt (fun h => Or.inl h) (fun h => Or.inr ⟨h.1, Nat.le_of_lt h.2⟩)
        unfold lexLe at hxb hrx ⊢
        omega
    · rw [if_neg hlt, List.sorted_cons]
      refine ⟨?_, sorted_insertReq r xs hxs⟩
      intro b hb
      have : b = r ∨ b ∈ xs := by
        have := List.Perm.mem_iff (perm_insertReq r xs) (a := b)
        rw [this] at hb
        exact List.mem_cons.mp hb
      rcases this with rfl | hb
      · exact lexLe_of_not_lexLt hlt
      · exact hx b hb

theorem enqueue_items_sorted (maxSize : Nat) (items : List QueuedRequest)
    (r : QueuedRequest) (h : items.Sorted lexLe) :
    (PriorityQueue.enqueue maxSize items r).items.Sorted lexLe := by
  unfold PriorityQueue.enqueue
  by_cases hfull : items.length ≥ maxSize
  · rw [if_pos hfull]; exact h
  · rw [if_neg hfull]; exact sorted_insertReq r items h

theorem dequeue_rest_sorted (items : List QueuedRequest)
    (h : items.Sorted lexLe) :
    (PriorityQueue.dequeue items).2.Sorted lexLe := by
  cases items with
  | nil => exact List.sorted_nil
  | cons x xs => exact (List.sorted_cons.mp h).2

/-- Every reachable queue state is sorted by (priority, timestamp). -/
theorem reachable_sorted {maxSize : Nat} {l : List QueuedRequest}
    (h : QueueReachable maxSize l) : l.Sorted lexLe := by
  induction h with
  | init => exact List.sorted_nil
  | step _ hstep ih =>
    cases hstep with
    | enqueue r => exact enqueue_items_sorted _ _ r ih
    | dequeue => exact dequeue_rest_sorted _ ih

/-- C5: for every sequence of enqueue and dequeue operations on a
PriorityQueue (HIGH=0 < MEDIUM=1 < LOW=2), dequeue returns a request with
the minimum priority value among queued requests and, within that priority,
the minimum enqueue timestamp; in particular a dequeue never returns a
lower-priority item while a higher-priority item is waiting. -/
theorem dequeue_returns_highest_priority_oldest {maxSize : Nat}
    {l : List QueuedRequest} (hreach : QueueReachable maxSize l)
    {h : QueuedRequest} (hhead : (PriorityQueue.dequeue l).1 = some h)
    {x : QueuedRequest} (hx : x ∈ l) :
    h.priority.val ≤ x.priority.val ∧
      (h.priority.val = x.priority.val → h.timestamp ≤ x.timestamp) := by
  have hs := reachable_sorted hreach
  cases l with
  | nil => simp [PriorityQueue.dequeue] at hhead
  | cons a rest =>
    have ha : a = h := by simpa [PriorityQueue.dequeue] using hhead
    subst ha
    rcases List.mem_cons.mp hx with rfl | hx
    · exact ⟨Nat.le_refl _, fun _ => Nat.le_refl _⟩
    · have hrel := List.rel_of_sorted_cons hs x hx
      unfold lexLe at hrel
      exact ⟨by omega, by omega⟩

/-- Witness for C5 at a concrete reachable queue: enqueue (LOW, t=1) then
(HIGH, t=2) into an empty queue of capacity 10; dequeue yields the HIGH
request, which is minimal against the waiting LOW request. -/
theorem dequeue_returns_highest_priority_oldest_witness :
    QueueReachable 10 [⟨.HIGH, 2⟩, ⟨.LOW, 1⟩] ∧
    (PriorityQueue.dequeue [⟨.HIGH, 2⟩, ⟨.LOW, 1⟩]).1 = some ⟨.HIGH, 2⟩ ∧
    ((QueuedRequest.mk .HIGH 2).priority.val ≤
        (QueuedRequest.mk .LOW 1).priority.val ∧
      ((QueuedRequest.mk .HIGH 2).priority.val =
          (QueuedRequest.mk .LOW 1).priority.val →
        (QueuedRequest.mk .HIGH 2).timestamp ≤
          (QueuedRequest.mk .LOW 1).timestamp)) := by
  have hr1 : QueueReachable 10 (PriorityQueue.enqueue 10 [] ⟨.LOW, 1⟩).items :=
    .step .init (.enqueue [] ⟨.LOW, 1⟩)
  have e1 : (PriorityQueue.enqueue 10 [] ⟨.LOW, 1⟩).items = [⟨.LOW, 1⟩] := by
    decide
  rw [e1] at hr1
  have hr2 : QueueReachable 10
      (PriorityQueue.enqueue 10 [⟨.LOW, 1⟩] ⟨.HIGH, 2⟩).items :=
    .step hr1 (.enqueue [⟨.LOW, 1⟩] ⟨.HIGH, 2⟩)
  have e2 : (PriorityQueue.enqueue 10 [⟨.LOW, 1⟩] ⟨.HIGH, 2⟩).items =
      [⟨.HIGH, 2⟩, ⟨.LOW, 1⟩] := by decide
  rw [e2] at hr2
  refine ⟨hr2, rfl, ?_⟩
  exact dequeue_returns_highest_priority_oldest hr2 rfl (by decide)

/-- C6: an enqueue at size ≥ capacity fails synchronously with
"Request queue is full" leaving the items untouched; an enqueue at
size < capacity accepts and inserts the request (a permutation of consing
it onto the previous items). -/
theorem enqueue_full_rejection (maxSize : Nat) (items : List QueuedRequest)
    (r : QueuedRequest) :
    (items.length ≥ maxSize →
      PriorityQueue.enqueue maxSize items r =
        ⟨items, .error "Request queue is full"⟩) ∧
    (items.length < maxSize →
      (PriorityQueue.enqueue maxSize items r).outcome = .ok () ∧
      (PriorityQueue.enqueue maxSize items r).items.Perm (r :: items)) := by
  constructor
  · intro h
    unfold PriorityQueue.enqueue
    rw [if_pos h]
  · intro h
    unfold PriorityQueue.enqueue
    rw [if_neg (by omega)]
    exact ⟨rfl, perm_insertReq r items⟩

/-- Witness for C6: with capacity 2, a third enqueue is rejected with the
exact message and no insertion; with one slot free, the enqueue is accepted
and the request is inserted. -/
theorem enqueue_full_rejection_witness :
    PriorityQueue.enqueue 2 [⟨.LOW, 1⟩, ⟨.LOW, 2⟩] ⟨.LOW, 3⟩ =
      ⟨[⟨.LOW, 1⟩, ⟨.LOW, 2⟩], .error "Request queue is full"⟩ ∧
    ((PriorityQueue.enqueue 2 [⟨.LOW, 1⟩] ⟨.LOW, 3⟩).outcome = .ok () ∧
      (PriorityQueue.enqueue 2 [⟨.LOW, 1⟩] ⟨.LOW, 3⟩).items.Perm
        (⟨.LOW, 3⟩ :: [⟨.LOW, 1⟩])) :=
  ⟨(enqueue_full_rejection 2 [⟨.LOW, 1⟩, ⟨.LOW, 2⟩] ⟨.LOW, 3⟩).1 (by decide),
   (enqueue_full_rejection 2 [⟨.LOW, 1⟩] ⟨.LOW, 3⟩).2 (by decide)⟩

/-! ### Accounts store flat-file parser (src/storage/accounts.store.ts) -/

/-- The `TwitterAccount` record from src/storage/accounts.store.ts. `emailPassword` is
always assigned the raw fourth field; the optional fields are pushed with
the JS `|| undefined` normalization. -/
structure TwitterAccount where
  username : String
  password : String
  email : String
  emailPassword : String
  twoFactorSecret : Option String
  ct0 : Option String
  authToken : Option String
deriving DecidableEq, Repr

/-- Function `normalizeTwoFactorSecret` from src/storage/accounts.store.ts: empty or
blank input is absent; otherwise trim, take the part after the last `/` when
one occurs, re-trim, and treat an empty result as absent. -/
def normalizeTwoFactorSecret (value : String) : Option String :=
  if value = "" then none
  else
    let v := strTrim value
    if v = "" then none
    else
      let last := if strIncludes v "/" then (strSplit v '/').getLastD "" else v
      let l := strTrim last
      if l = "" then none else some l

/-- Function `parseAccountsFromTxt` from src/storage/accounts.store.ts. Lines are
split on newline and trimmed (the trim also removes a CR left by a CRLF
split), blank and `#`-prefixed lines dropped; each record line is split on
`:`; lines with fewer than 7 fields are skipped; `auth_token` is the last
field, `ct0` the one before it, and fields 4 through `n-3` are re-joined
with `:` as the raw 2FA secret; lines whose username, password or email is
empty are skipped. -/
def parseAccountsFromTxt (raw : String) : List TwitterAccount :=
  let lines := ((strSplit raw '\n').map strTrim).filter
    (fun x => decide (0 < x.length) && !(strStartsWith x "#"))
  lines.filterMap (fun line =>
    let parts := strSplit line ':'
    if parts.length < 7 then none
    else
      let username := parts.getD 0 ""
      let password := parts.getD 1 ""
      let email := parts.getD 2 ""
      let emailPassword := parts.getD 3 ""
      let authToken := parts.getD (parts.length - 1) ""
      let ct0 := parts.getD (parts.length - 2) ""
      let twoFaRaw := strJoin ':' ((parts.drop 4).take (parts.length - 2 - 4))
      let twoFactorSecret := normalizeTwoFactorSecret twoFaRaw
      if username = "" ∨ password = "" ∨ email = "" then none
      else
        some {
          username := username
          password := password
          email := email
          emailPassword := emailPassword
          twoFactorSecret := twoFactorSecret
          ct0 := if ct0 = "" then none else some ct0
          authToken := if authToken = "" then none else some authToken })

/-- C9: a record line with n ≥ 7 colon-separated fields (and non-empty
credential fields) parses to one account whose ct0 is field n-2, authToken
is field n-1, and whose 2FA secret is fields 4..n-3 re-joined with `:` and
normalized (trim, then the part after the last `/`); a line with fewer than
7 fields is skipped; and the concrete otpauth line of the spec parses to
exactly the stated record. -/
theorem parse_accounts_field_layout :
    (∀ raw : String, strSplit raw '\n' = [raw] → strTrim raw = raw →
      0 < raw.length → strStartsWith raw "#" = false →
      7 ≤ (strSplit raw ':').length →
      (strSplit raw ':').getD 0 "" ≠ "" →
      (strSplit raw ':').getD 1 "" ≠ "" →
      (strSplit raw ':').getD 2 "" ≠ "" →
      parseAccountsFromTxt raw =
        [{ username := (strSplit raw ':').getD 0 "",
           password := (strSplit raw ':').getD 1 "",
           email := (strSplit raw ':').getD 2 "",
           emailPassword := (strSplit raw ':').getD 3 "",
           twoFactorSecret := normalizeTwoFactorSecret (strJoin ':'
             (((strSplit raw ':').drop 4).take
               ((strSplit raw ':').length - 2 - 4))),
           ct0 :=
             if (strSplit raw ':').getD ((strSplit raw ':').length - 2) "" = ""
             then none
             else some ((strSplit raw ':').getD
               ((strSplit raw ':').length - 2) ""),
           authToken :=
             if (strSplit raw ':').getD ((strSplit raw ':').length - 1) "" = ""
             then none
             else some ((strSplit raw ':').getD
               ((strSplit raw ':').length - 1) "") }]) ∧
    (∀ raw : String, strSplit raw '\n' = [raw] → strTrim raw = raw →
      0 < raw.length → strStartsWith raw "#" = false →
      (strSplit raw ':').length < 7 →
      parseAccountsFromTxt raw = []) ∧
    parseAccountsFromTxt
        "user:pass:a@b.com:ep:otpauth://totp/Twitter:secret=ABC:longct0:token"
      = [{ username := "user", password := "pass", email := "a@b.com",
           emailPassword := "ep", twoFactorSecret := some "Twitter:secret=ABC",
           ct0 := some "longct0", authToken := some "token" }] := by
  refine ⟨?_, ?_, by decide⟩
  · intro raw h1 h2 h3 h4 h7 hu hp he
    unfold parseAccountsFromTxt
    rw [h1]
    simp only [List.map_cons, List.map_nil]
    rw [h2]
    have hf : (decide (0 < raw.length) && !(strStartsWith raw "#")) = true := by
      rw [h4]
      simp [h3]
    simp only [List.filter_cons, List.filter_nil, hf, if_true]
    simp only [List.filterMap_cons, List.filterMap_nil]
    rw [if_neg (by omega)]
    rw [if_neg (by tauto)]
  · intro raw h1 h2 h3 h4 h7
    unfold parseAccountsFromTxt
    rw [h1]
    simp only [List.map_cons, List.map_nil]
    rw [h2]
    have hf : (decide (0 < raw.length) && !(strStartsWith raw "#")) = true := by
      rw [h4]
      simp [h3]
    simp only [List.filter_cons, List.filter_nil, hf, if_true]
    simp only [List.filterMap_cons, List.filterMap_nil]
    rw [if_pos h7]

/-- Witness for C9: the general field-layout part applied to the concrete
otpauth line, and the skip rule applied to a 3-field line. -/
theorem parse_accounts_field_layout_witness :
    parseAccountsFromTxt
        "user:pass:a@b.com:ep:otpauth://totp/Twitter:secret=ABC:longct0:token"
      = [{ username := "user", password := "pass", email := "a@b.com",
           emailPassword := "ep", twoFactorSecret := some "Twitter:secret=ABC",
           ct0 := some "longct0", authToken := some "token" }] ∧
    parseAccountsFromTxt "a:b:c" = [] := by
  constructor
  · have h := parse_accounts_field_layout.1
      "user:pass:a@b.com:ep:otpauth://totp/Twitter:secret=ABC:longct0:token"
      (by decide) (by decide) (by decide) (by decide) (by decide) (by decide)
      (by decide) (by decide)
    rw [h]
    decide
  · exact parse_accounts_field_layout.2.1 "a:b:c"
      (by decide) (by decide) (by decide) (by decide) (by decide)

/-- C10: a line with at least 7 fields whose username, password or email
field is empty produces no account record and no error: the whole parse of
that line is the empty list. -/
theorem parse_accounts_drops_empty_credentials (raw : String)
    (h1 : strSplit raw '\n' = [raw]) (h2 : strTrim raw = raw)
    (h3 : 0 < raw.length) (h4 : strStartsWith raw "#" = false)
    (h7 : 7 ≤ (strSplit raw ':').length)
    (hemp : (strSplit raw ':').getD 0 "" = "" ∨
      (strSplit raw ':').getD 1 "" = "" ∨ (strSplit raw ':').getD 2 "" = "") :
    parseAccountsFromTxt raw = [] := by
  unfold parseAccountsFromTxt
  rw [h1]
  simp only [List.map_cons, List.map_nil]
  rw [h2]
  have hf : (decide (0 < raw.length) && !(strStartsWith raw "#")) = true := by
    rw [h4]
    simp [h3]
  simp only [List.filter_cons, List.filter_nil, hf, if_true]
  simp only [List.filterMap_cons, List.filterMap_nil]
  rw [if_neg (by omega)]
  rw [if_pos (by tauto)]

/-- Witness for C10: a 7-field line with an empty username is silently
dropped. -/
theorem parse_accounts_drops_empty_credentials_witness :
    parseAccountsFromTxt ":pass:mail@x.com:ep:2fa:ct0val:tokval" = [] :=
  parse_accounts_drops_empty_credentials ":pass:mail@x.com:ep:2fa:ct0val:tokval"
    (by decide) (by decide) (by decide) (by decide) (by decide)
    (by decide)

/-- C8: the seven classifier rules on the spec's sample messages
(first match wins on the lowercased message), the transient set
{TIMEOUT, NETWORK, UNKNOWN}, and the full external status map. -/
theorem classifier_rules_and_maps :
    classifyError "request timed out" = .TIMEOUT ∧
    classifyError "ECONNRESET" = .NETWORK ∧
    classifyError "429 Too Many Requests" = .RATE_LIMIT ∧
    classifyError "401 Unauthorized" = .AUTH ∧
    classifyError "User not found" = .NOT_FOUND ∧
    classifyError "Account locked" = .ACCOUNT_LOCKED ∧
    classifyError "something weird" = .UNKNOWN ∧
    (∀ k : ErrorType, isTransientError k = true ↔
      (k = .TIMEOUT ∨ k = .NETWORK ∨ k = .UNKNOWN)) ∧
    errorTypeToHttpStatus .RATE_LIMIT = 429 ∧
    errorTypeToHttpStatus .AUTH = 401 ∧
    errorTypeToHttpStatus .NOT_FOUND = 404 ∧
    errorTypeToHttpStatus .ACCOUNT_LOCKED = 503 ∧
    errorTypeToHttpStatus .TIMEOUT = 502 ∧
    errorTypeToHttpStatus .NETWORK = 502 ∧
    errorTypeToHttpStatus .UNKNOWN = 500 := by
  refine ⟨by decide, by decide, by decide, by decide, by decide, by decide,
    by decide, ?_, by decide, by decide, by decide, by decide, by decide,
    by decide, by decide⟩
  intro k
  cases k <;> decide

/-! ### Account health registry (src/twitter/twitter-client-pool.service.ts) -/

/-- The `AccountStatus` enum from the pool service. -/
inductive AccountStatus where
  | HEALTHY
  | PROBATION
  | COOLDOWN
  | DISABLED
  | LOCKED
deriving DecidableEq, Repr

/-- The `AccountHealth` record from the pool service. Wall-clock times are
naturals (ms); `successRate` is exact rational arithmetic standing in for
the JS number. -/
structure AccountHealth where
  status : AccountStatus
  lastUsed : Nat
  requestCount : Nat
  consecutiveFailures : Nat
  consecutiveSuccesses : Nat
  cooldownUntil : Option Nat
  lastErrorType : Option ErrorType
  lastErrorTime : Option Nat
  successRate : ℚ
  requestTimestamps : List Nat
deriving DecidableEq, Repr

/-- Constant `maxConsecutiveFailures` set in the pool constructor. -/
def maxConsecutiveFailures : Nat := 10

/-- Constant `cooldownMs` set in the pool constructor: 2 minutes. -/
def cooldownMs : Nat := 2 * 60000

/-- Constant `rateLimitWindow` set in the pool constructor: 15 minutes. -/
def rateLimitWindow : Nat := 15 * 60000

/-- Constant `maxRequestsPerWindow` set in the pool constructor. -/
def maxRequestsPerWindow : Nat := 50

/-- The fresh record `ensureHealth` creates on first touch. -/
def initialHealth : AccountHealth :=
  { status := .HEALTHY, lastUsed := 0, requestCount := 0,
    consecutiveFailures := 0, consecutiveSuccesses := 0,
    cooldownUntil := none, lastErrorType := none, lastErrorTime := none,
    successRate := 1, requestTimestamps := [] }

/-- Method `recordSuccess` from the pool service: bump counters, reset failures,
push the timestamp, recompute `successRate` first by the ratio formula with
its constant-false filter (verbatim from the source) and then by the
"simple exponential moving average" line, and promote PROBATION to HEALTHY
after 3 consecutive successes. -/
def recordSuccess (h : AccountHealth) (now : Nat) : AccountHealth :=
  let h1 := { h with
    lastUsed := now
    requestCount := h.requestCount + 1
    consecutiveSuccesses := h.consecutiveSuccesses + 1
    consecutiveFailures := 0
    requestTimestamps := h.requestTimestamps ++ [now] }
  let ratio : ℚ :=
    if 0 < h1.requestCount then
      ((h1.requestCount : ℚ) -
        ((h1.requestTimestamps.filter (fun _ => false)).length : ℚ)) /
        (h1.requestCount : ℚ)
    else 1
  let h2 := { h1 with successRate := ratio * (9 / 10) + 1 / 10 }
  if h2.status = .PROBATION ∧ 3 ≤ h2.consecutiveSuccesses then
    { h2 with status := .HEALTHY }
  else h2

/-- Method `recordFailure` from the pool service: bump counters, reset successes,
stamp the error, push the timestamp, decay `successRate` by 0.9, then apply
the status transitions (LOCKED on ACCOUNT_LOCKED, COOLDOWN on RATE_LIMIT or
on reaching the consecutive-failure threshold). -/
def recordFailure (h : AccountHealth) (errorType : ErrorType) (now : Nat) :
    AccountHealth :=
  let h1 := { h with
    lastUsed := now
    requestCount := h.requestCount + 1
    consecutiveFailures := h.consecutiveFailures + 1
    consecutiveSuccesses := 0
    lastErrorType := some errorType
    lastErrorTime := some now
    requestTimestamps := h.requestTimestamps ++ [now]
    successRate := h.successRate * (9 / 10) }
  if errorType = .ACCOUNT_LOCKED then
    { h1 with status := .LOCKED }
  else if errorType = .RATE_LIMIT then
    { h1 with status := .COOLDOWN, cooldownUntil := some (now + cooldownMs) }
  else if maxConsecutiveFailures ≤ h1.consecutiveFailures then
    { h1 with status := .COOLDOWN, cooldownUntil := some (now + cooldownMs) }
  else h1

/-- The per-record body of `runHealthCheck`: prune request timestamps to the
rate window, and move an expired COOLDOWN (truthy `cooldownUntil`, strictly
past) to PROBATION with failures reset. -/
def runHealthCheckEntry (h : AccountHealth) (now : Nat) : AccountHealth :=
  let h1 := { h with
    requestTimestamps :=
      h.requestTimestamps.filter (fun t => decide (now - t < rateLimitWindow)) }
  match h1.cooldownUntil with
  | some c =>
      if h1.status = .COOLDOWN ∧ c ≠ 0 ∧ c < now then
        { h1 with status := .PROBATION, consecutiveFailures := 0 }
      else h1
  | none => h1

/-- The truthiness-guarded cooldown test in `selectAccount`:
`h.status === COOLDOWN && h.cooldownUntil && now < h.cooldownUntil`. -/
def cooldownActive (h : AccountHealth) (now : Nat) : Bool :=
  match h.cooldownUntil with
  | some c => c != 0 && now < c
  | none => false

/-- The filter predicate of `selectAccount`: drop DISABLED/LOCKED accounts,
drop COOLDOWN accounts whose cooldown has not expired, and drop accounts at
the rate-limit window cap. -/
def selectFilter (h : AccountHealth) (now : Nat) : Bool :=
  if h.status = .DISABLED ∨ h.status = .LOCKED then false
  else if h.status = .COOLDOWN && cooldownActive h now then false
  else if maxRequestsPerWindow ≤
      (h.requestTimestamps.filter (fun t => decide (now - t < rateLimitWindow))).length then
    false
  else true

/-- The sort comparator of `selectAccount`: HEALTHY first when statuses
differ, then ascending consecutive failures, then least-recently-used. -/
def selectCmp (ha hb : AccountHealth) : Int :=
  if ha.status ≠ hb.status ∧ ha.status = .HEALTHY then -1
  else if ha.status ≠ hb.status ∧ hb.status = .HEALTHY then 1
  else if ha.consecutiveFailures ≠ hb.consecutiveFailures then
    (ha.consecutiveFailures : Int) - (hb.consecutiveFailures : Int)
  else (ha.lastUsed : Int) - (hb.lastUsed : Int)

/-- Insertion step of the sort used to model `Array.prototype.sort`. -/
def insertBy (le : α → α → Bool) (x : α) : List α → List α
  | [] => [x]
  | y :: ys => if le x y then x :: y :: ys else y :: insertBy le x ys

/-- Sort used to model `Array.prototype.sort` with a comparator (any
comparator-respecting permutation serves the claims below). -/
def sortBy (le : α → α → Bool) : List α → List α
  | [] => []
  | x :: xs => insertBy le x (sortBy le xs)

/-- Method `selectAccount` from the pool service, over the account keys and the
health view: filter, sort by the comparator, return the first. -/
def selectAccount (accounts : List String)
    (healthOf : String → AccountHealth) (now : Nat) : Option String :=
  (sortBy (fun a b => selectCmp (healthOf a) (healthOf b) ≤ 0)
    (accounts.filter (fun a => selectFilter (healthOf a) now))).head?


/-- The exclusion invariant carried through C4: the record is LOCKED, or in
COOLDOWN with a truthy `cooldownUntil` no earlier than `T`. -/
def blockedUntil (T : Nat) (h : AccountHealth) : Prop :=
  h.status = .LOCKED ∨
    (h.status = .COOLDOWN ∧ ∃ c, h.cooldownUntil = some c ∧ T ≤ c ∧ 0 < c)

/-- Lemma: `recordSuccess` only changes the status by promoting PROBATION. -/
theorem recordSuccess_status (h : AccountHealth) (t : Nat) :
    (recordSuccess h t).status =
      if h.status = .PROBATION ∧ 3 ≤ h.consecutiveSuccesses + 1 then
        AccountStatus.HEALTHY
      else h.status := by
  simp only [recordSuccess]
  split <;> rfl

/-- Lemma: `recordSuccess` never touches `cooldownUntil`. -/
theorem recordSuccess_cooldownUntil (h : AccountHealth) (t : Nat) :
    (recordSuccess h t).cooldownUntil = h.cooldownUntil := by
  simp only [recordSuccess]
  split <;> rfl

/-- A blocked record stays blocked through `recordSuccess`. -/
theorem blockedUntil_recordSuccess {T : Nat} {h : AccountHealth} (t : Nat)
    (hb : blockedUntil T h) : blockedUntil T (recordSuccess h t) := by
  unfold blockedUntil at hb ⊢
  rw [recordSuccess_status, recordSuccess_cooldownUntil]
  rcases hb with hL | ⟨hC, c, hc, hTc, hc0⟩
  · rw [if_neg (by simp [hL])]
    exact Or.inl hL
  · rw [if_neg (by simp [hC])]
    exact Or.inr ⟨hC, c, hc, hTc, hc0⟩

/-- A blocked record stays blocked through any `recordFailure` at a time
`t` with `T ≤ t + cooldownMs`. -/
theorem recordFailure_blocked {T : Nat} {h : AccountHealth} (k : ErrorType)
    (t : Nat) (ht : T ≤ t + cooldownMs) (hb : blockedUntil T h) :
    blockedUntil T (recordFailure h k t) := by
  unfold blockedUntil at hb ⊢
  simp only [recordFailure]
  by_cases hk1 : k = .ACCOUNT_LOCKED
  · rw [if_pos hk1]
    exact Or.inl rfl
  · rw [if_neg hk1]
    by_cases hk2 : k = .RATE_LIMIT
    · rw [if_pos hk2]
      exact Or.inr ⟨rfl, t + cooldownMs, rfl, ht, by unfold cooldownMs; omega⟩
    · rw [if_neg hk2]
      by_cases hk3 : maxConsecutiveFailures ≤ h.consecutiveFailures + 1
      · rw [if_pos hk3]
        exact Or.inr ⟨rfl, t + cooldownMs, rfl, ht, by unfold cooldownMs; omega⟩
      · rw [if_neg hk3]
        rcases hb with hL | ⟨hC, c, hc, hTc, hc0⟩
        · exact Or.inl hL
        · exact Or.inr ⟨hC, c, hc, hTc, hc0⟩

/-- A blocked record stays blocked through a sweep that runs before `T`. -/
theorem runHealthCheckEntry_blocked {T : Nat} {h : AccountHealth} (t : Nat)
    (ht : t < T) (hb : blockedUntil T h) :
    blockedUntil T (runHealthCheckEntry h t) := by
  unfold blockedUntil at hb ⊢
  rcases hb with hL | ⟨hC, c, hc, hTc, hc0⟩
  · cases hcu : h.cooldownUntil with
    | none => simp [runHealthCheckEntry, hcu, hL]
    | some c => simp [runHealthCheckEntry, hcu, hL]
  · simp only [runHealthCheckEntry]
    simp only [hc]
    rw [if_neg]
    · exact Or.inr ⟨hC, c, rfl, hTc, hc0⟩
    · rintro ⟨-, -, hlt⟩
      omega

/-- An event touching one account's health record. -/
inductive HealthEvent where
  | success (t : Nat)
  | failure (t : Nat) (k : ErrorType)
  | sweep (t : Nat)
deriving DecidableEq, Repr

/-- The wall-clock time at which an event occurs. -/
def HealthEvent.time : HealthEvent → Nat
  | .success t => t
  | .failure t _ => t
  | .sweep t => t

/-- Apply one health event to a record. -/
def applyEvent (h : AccountHealth) : HealthEvent → AccountHealth
  | .success t => recordSuccess h t
  | .failure t k => recordFailure h k t
  | .sweep t => runHealthCheckEntry h t

/-- The exclusion invariant is preserved by any sequence of events whose
times lie in the window before `T`. -/
theorem blockedUntil_foldl {T : Nat} (events : List HealthEvent) :
    ∀ h : AccountHealth, blockedUntil T h →
      (∀ e ∈ events, T ≤ e.time + cooldownMs ∧ e.time < T) →
      blockedUntil T (events.foldl applyEvent h) := by
  induction events with
  | nil => intro h hb _; exact hb
  | cons e es ih =>
      intro h hb hall
      simp only [List.foldl_cons]
      apply ih
      · have he := hall e (List.mem_cons_self e es)
        cases e with
        | success t => exact blockedUntil_recordSuccess t hb
        | failure t k => exact recordFailure_blocked k t he.1 hb
        | sweep t => exact runHealthCheckEntry_blocked t he.2 hb
      · intro e' he'
        exact hall e' (List.mem_cons_of_mem e he')

/-- A blocked record fails the `selectAccount` filter at any time before
`T`. -/
theorem blockedUntil_not_selectable {T now : Nat} {h : AccountHealth}
    (hb : blockedUntil T h) (hnow : now < T) :
    selectFilter h now = false := by
  unfold selectFilter
  rcases hb with hL | ⟨hC, c, hc, hTc, hc0⟩
  · rw [if_pos (Or.inr hL)]
  · rw [if_neg (by simp [hC])]
    rw [if_pos]
    simp [hC, cooldownActive, hc]
    constructor
    · omega
    · omega

/-- Lemma: `insertBy` produces a permutation of consing the element. -/
theorem insertBy_perm (le : α → α → Bool) (x : α) :
    ∀ l : List α, (insertBy le x l).Perm (x :: l)
  | [] => .refl _
  | y :: ys => by
      unfold insertBy
      by_cases hc : le x y
      · rw [if_pos hc]
      · rw [if_neg hc]
        exact ((insertBy_perm le x ys).cons y).trans (List.Perm.swap x y ys)

/-- Lemma: `sortBy` permutes its input. -/
theorem sortBy_perm (le : α → α → Bool) :
    ∀ l : List α, (sortBy le l).Perm l
  | [] => .refl _
  | x :: xs => by
      unfold sortBy
      exact (insertBy_perm le x (sortBy le xs)).trans
        ((sortBy_perm le xs).cons x)

/-- Whatever `selectAccount` returns passed the selection filter. -/
theorem selectAccount_filter {accounts : List String}
    {healthOf : String → AccountHealth} {now : Nat} {u : String}
    (hsel : selectAccount accounts healthOf now = some u) :
    selectFilter (healthOf u) now = true := by
  unfold selectAccount at hsel
  have hmem : u ∈ sortBy (fun a b => selectCmp (healthOf a) (healthOf b) ≤ 0)
      (accounts.filter (fun a => selectFilter (healthOf a) now)) := by
    cases hl : sortBy (fun a b => selectCmp (healthOf a) (healthOf b) ≤ 0)
        (accounts.filter (fun a => selectFilter (healthOf a) now)) with
    | nil => rw [hl] at hsel; simp at hsel
    | cons a rest =>
        rw [hl] at hsel
        have : a = u := by simpa using hsel
        rw [this]
        exact List.mem_cons_self u rest
  have hmem2 : u ∈ accounts.filter (fun a => selectFilter (healthOf a) now) :=
    (sortBy_perm _ _).mem_iff.mp hmem
  exact (List.mem_filter.mp hmem2).2

/-- C4: immediately after `recordFailure(username, RATE_LIMIT)` at time
`now` the record is COOLDOWN with `cooldownUntil = now + cooldownMs`
(2 min), and through any further recordSuccess / recordFailure / sweep
events timed inside the window, `selectAccount` does not return that
account at any `now' < now + cooldownMs`. -/
theorem rate_limit_cooldown_excludes_selection
    (h : AccountHealth) (now now' : Nat) (events : List HealthEvent)
    (hev : ∀ e ∈ events, now ≤ e.time ∧ e.time ≤ now')
    (hnow : now' < now + cooldownMs)
    (accounts : List String) (healthOf : String → AccountHealth) (u : String)
    (hu : healthOf u =
      events.foldl applyEvent (recordFailure h .RATE_LIMIT now)) :
    (recordFailure h .RATE_LIMIT now).status = .COOLDOWN ∧
    (recordFailure h .RATE_LIMIT now).cooldownUntil =
      some (now + cooldownMs) ∧
    selectAccount accounts healthOf now' ≠ some u := by
  have hstat : (recordFailure h .RATE_LIMIT now).status = .COOLDOWN := by
    simp only [recordFailure]
    rw [if_neg (by decide), if_pos trivial]
  have hcu : (recordFailure h .RATE_LIMIT now).cooldownUntil =
      some (now + cooldownMs) := by
    simp only [recordFailure]
    rw [if_neg (by decide), if_pos trivial]
  refine ⟨hstat, hcu, ?_⟩
  intro hsel
  have hfil := selectAccount_filter hsel
  have hb0 : blockedUntil (now + cooldownMs)
      (recordFailure h .RATE_LIMIT now) :=
    Or.inr ⟨hstat, now + cooldownMs, hcu, le_refl _, by
      unfold cooldownMs; omega⟩
  have hb : blockedUntil (now + cooldownMs) (healthOf u) := by
    rw [hu]
    exact blockedUntil_foldl events _ hb0
      (fun e he => ⟨by have := hev e he; omega, by have := hev e he; omega⟩)
  rw [blockedUntil_not_selectable hb hnow] at hfil
  exact absurd hfil (by decide)

/-- Witness for C4: a fresh account rate-limited at t=1000 is COOLDOWN
until 121000 and is not selected at t=50000. -/
theorem rate_limit_cooldown_excludes_selection_witness :
    (recordFailure initialHealth .RATE_LIMIT 1000).status = .COOLDOWN ∧
    (recordFailure initialHealth .RATE_LIMIT 1000).cooldownUntil =
      some (1000 + cooldownMs) ∧
    selectAccount ["alice"]
      (fun _ => recordFailure initialHealth .RATE_LIMIT 1000) 50000 ≠
      some "alice" :=
  rate_limit_cooldown_excludes_selection initialHealth 1000 50000 []
    (by simp) (by decide) ["alice"]
    (fun _ => recordFailure initialHealth .RATE_LIMIT 1000) "alice" rfl

/-- C3: the failure side does decay `successRate` by 0.9, but
`recordSuccess` does not apply the EMA `s := 0.9*s + 0.1`: starting from
`successRate = 1/2` it yields 1 (the ratio formula with its constant-false
filter collapses to 1), while the claimed EMA value 0.9*(1/2)+0.1 = 0.55
is not 1. -/
theorem success_rate_update_shapes :
    (∀ (h : AccountHealth) (k : ErrorType) (t : Nat),
      (recordFailure h k t).successRate = h.successRate * (9 / 10)) ∧
    (recordSuccess
        { initialHealth with successRate := 1 / 2, requestCount := 4 }
        1000).successRate = 1 ∧
    (9 : ℚ) / 10 * (1 / 2) + 1 / 10 ≠ 1 := by
  refine ⟨?_, ?_, by norm_num⟩
  · intro h k t
    simp only [recordFailure]
    by_cases hk1 : k = .ACCOUNT_LOCKED
    · rw [if_pos hk1]
    · rw [if_neg hk1]
      by_cases hk2 : k = .RATE_LIMIT
      · rw [if_pos hk2]
      · rw [if_neg hk2]
        by_cases hk3 : maxConsecutiveFailures ≤ h.consecutiveFailures + 1
        · rw [if_pos hk3]
        · rw [if_neg hk3]
  · norm_num [recordSuccess, initialHealth]

/-! ### Dispatcher retry loop (`runWithRetry` in the pool service) -/

/-- The control flow of `runWithRetry`. `outcome attempt` abstracts the
body of attempt number `attempt` (select an account, authenticate, run the
executor): `.ok v` when the attempt returns `v`, `.error m` when it throws
with message `m`. A thrown error is classified; a non-transient kind is
re-thrown at once; a transient kind backs off and retries while attempts
remain; when the attempt budget is exhausted the last error (or the
fallback message) is thrown. -/
def runRetryGo (outcome : Nat → Except String Nat) :
    Nat → Nat → Option String → Except String Nat
  | _, 0, lastError => .error (lastError.getD "failed after retries")
  | attempt, fuel + 1, _ =>
      match outcome attempt with
      | .ok v => .ok v
      | .error e =>
          if isTransientError (classifyError e) then
            runRetryGo outcome (attempt + 1) fuel (some e)
          else .error e

/-- Function `runWithRetry` with its attempt budget (`maxRetries`, default 3 at the
call site). -/
def runWithRetry (outcome : Nat → Except String Nat) (maxRetries : Nat) :
    Except String Nat :=
  runRetryGo outcome 0 maxRetries none

/-- C2 counterexample: with maxRetries = 3, an attempt-0 failure whose
message classifies as RATE_LIMIT is propagated to the caller at once even
though retry attempts remain — the next attempt would have succeeded with
42, but the dispatch returns the RATE_LIMIT error. -/
theorem rate_limit_retried_counterexample :
    classifyError "429 Too Many Requests" = .RATE_LIMIT ∧
    runWithRetry
        (fun attempt =>
          if attempt = 0 then .error "429 Too Many Requests" else .ok 42)
        3 = .error "429 Too Many Requests" ∧
    runWithRetry
        (fun attempt =>
          if attempt = 0 then .error "429 Too Many Requests" else .ok 42)
        3 ≠ .ok 42 := by
  refine ⟨by decide, rfl, ?_⟩
  intro h
  exact Except.noConfusion h

/-- C2 amended: an attempt that fails with a RATE_LIMIT-classified message
propagates that error immediately (RATE_LIMIT is not in the transient set),
regardless of the remaining attempt budget; only a transient-classified
failure (TIMEOUT/NETWORK/UNKNOWN) moves on to the next attempt. -/
theorem rate_limit_propagates_immediately
    (outcome : Nat → Except String Nat) (attempt fuel : Nat)
    (lastError : Option String) (m : String) :
    (outcome attempt = .error m → classifyError m = .RATE_LIMIT →
      runRetryGo outcome attempt (fuel + 1) lastError = .error m) ∧
    (outcome attempt = .error m → isTransientError (classifyError m) = true →
      runRetryGo outcome attempt (fuel + 1) lastError =
        runRetryGo outcome (attempt + 1) fuel (some m)) := by
  constructor
  · intro ho hk
    simp only [runRetryGo, ho, hk]
    rw [if_neg (by decide)]
  · intro ho ht
    simp only [runRetryGo, ho, ht]
    rw [if_pos trivial]

/-- Witness for C2 amended: a RATE_LIMIT failure at attempt 0 with budget 3
returns that error; a TIMEOUT failure at attempt 0 proceeds to attempt 1. -/
theorem rate_limit_propagates_immediately_witness :
    runRetryGo
        (fun a => if a = 0 then .error "rate limit exceeded" else .ok 7)
        0 3 none = .error "rate limit exceeded" ∧
    runRetryGo
        (fun a => if a = 0 then .error "request timed out" else .ok 7)
        0 3 none =
      runRetryGo
        (fun a => if a = 0 then .error "request timed out" else .ok 7)
        1 2 (some "request timed out") := by
  constructor
  · exact (rate_limit_propagates_immediately
      (fun a => if a = 0 then .error "rate limit exceeded" else .ok 7)
      0 2 none "rate limit exceeded").1 (by rfl) (by decide)
  · exact (rate_limit_propagates_immediately
      (fun a => if a = 0 then .error "request timed out" else .ok 7)
      0 2 none "request timed out").2 (by rfl) (by decide)

/-! ### Dispatcher concurrency counter (`processQueue` / `runWithRetry`) -/

/-- The dispatcher state observed at stable points: requests sitting in the
queue, spawned operations that have not yet reached their `activeOps++`
(the increment happens only after the `await authenticate(...)` suspension),
and operations currently counted in `activeOps`. -/
structure DispatchState where
  queued : Nat
  pending : Nat
  active : Nat
deriving DecidableEq, Repr

/-- One synchronous `processQueue` tick: the while loop runs as long as
`activeOps < maxConcurrency && queue.length > 0`. The spawned request only
increments `activeOps` after an `await`, which cannot happen inside the
synchronous tick, so `activeOps` is constant during the loop: an open gate
drains the entire queue into spawned-but-uncounted operations. -/
def processQueueTick (maxConcurrency : Nat) (s : DispatchState) :
    DispatchState :=
  if s.active < maxConcurrency then
    { s with queued := 0, pending := s.pending + s.queued }
  else s

/-- The dispatcher's observable steps: admission (`enqueue`, bounded by the
queue capacity), a scheduler tick, a spawned operation reaching its
`activeOps++`, and an operation leaving through the
`finally { activeOps-- }`. -/
inductive DispatchStep (maxConcurrency maxQueueSize : Nat) :
    DispatchState → DispatchState → Prop
  | enqueue (s : DispatchState) : s.queued < maxQueueSize →
      DispatchStep maxConcurrency maxQueueSize s
        { s with queued := s.queued + 1 }
  | tick (s : DispatchState) :
      DispatchStep maxConcurrency maxQueueSize s
        (processQueueTick maxConcurrency s)
  | beginOp (s : DispatchState) : 0 < s.pending →
      DispatchStep maxConcurrency maxQueueSize s
        { queued := s.queued, pending := s.pending - 1,
          active := s.active + 1 }
  | endOp (s : DispatchState) : 0 < s.active →
      DispatchStep maxConcurrency maxQueueSize s
        { s with active := s.active - 1 }

/-- Dispatcher states reachable from the idle state. -/
inductive DispatchReachable (maxConcurrency maxQueueSize : Nat) :
    DispatchState → Prop
  | init : DispatchReachable maxConcurrency maxQueueSize ⟨0, 0, 0⟩
  | step {s s' : DispatchState} :
      DispatchReachable maxConcurrency maxQueueSize s →
      DispatchStep maxConcurrency maxQueueSize s s' →
      DispatchReachable maxConcurrency maxQueueSize s'

/-- Lemma: `n` admissions from idle are reachable within the capacity. -/
theorem reach_enqueues (maxC maxQ : Nat) :
    ∀ n, n ≤ maxQ → DispatchReachable maxC maxQ ⟨n, 0, 0⟩
  | 0, _ => .init
  | n + 1, hn =>
      .step (reach_enqueues maxC maxQ n (by omega))
        (.enqueue ⟨n, 0, 0⟩ (by show n < maxQ; omega))

/-- Lemma: `k` of the pending operations can each reach their `activeOps++`. -/
theorem reach_begins (maxC maxQ p a : Nat) :
    ∀ k, k ≤ p → DispatchReachable maxC maxQ ⟨0, p, a⟩ →
      DispatchReachable maxC maxQ ⟨0, p - k, a + k⟩
  | 0, _, h => h
  | k + 1, hk, h =>
      .step (reach_begins maxC maxQ p a k (by omega) h)
        (.beginOp ⟨0, p - k, a + k⟩ (by show 0 < p - k; omega))

/-- C1 fails on the code: with MaxConcurrency = 10 and queue capacity 1000,
a state with `activeOps = 11 > 10` is reachable — 11 requests are admitted
while no operation is active, one `processQueue` tick dequeues and spawns
all 11 (the gate reads `activeOps = 0` throughout, since the increments
happen only after an `await`), and then each spawned operation passes
authentication and increments `activeOps`. -/
theorem active_ops_can_exceed_max_concurrency :
    ∃ s : DispatchState, DispatchReachable 10 1000 s ∧ ¬ s.active ≤ 10 := by
  refine ⟨⟨0, 0, 11⟩, ?_, by decide⟩
  have h11 : DispatchReachable 10 1000 ⟨11, 0, 0⟩ :=
    reach_enqueues 10 1000 11 (by omega)
  have htick : DispatchReachable 10 1000 ⟨0, 11, 0⟩ := by
    have hstep := DispatchReachable.step h11 (.tick ⟨11, 0, 0⟩)
    rw [show processQueueTick 10 ⟨11, 0, 0⟩ = ⟨0, 11, 0⟩ from by decide]
      at hstep
    exact hstep
  exact reach_begins 10 1000 11 0 11 (by omega) htick

/-! ### Pool statistics (`getStats` in the pool service) -/

/-- The pool state read by `getStats`: the account list, the health view
(`ensureHealth`), the proxy count, the queue's items and its configured
`maxSize` (`MAX_QUEUE_SIZE`, default 1000, passed to the `PriorityQueue`
constructor), the live-operation counter and the concurrency cap. -/
structure PoolState where
  accounts : List String
  healthOf : String → AccountHealth
  proxiesCount : Nat
  queueItems : List QueuedRequest
  queueMaxSize : Nat
  activeOps : Nat
  maxConcurrency : Nat

/-- JavaScript `Math.round`. -/
def jsRound (q : ℚ) : Int :=
  ⌊q + 1 / 2⌋

/-- The `PoolStats` shape returned by `getStats`. -/
structure PoolStats where
  accountsTotal : Nat
  healthy : Nat
  probation : Nat
  cooldown : Nat
  disabled : Nat
  locked : Nat
  proxiesTotal : Nat
  queueDepth : Nat
  queueMaxSize : Nat
  concurrencyActive : Nat
  concurrencyMax : Nat
  perAccount : List (String × AccountStatus × Nat × Int)

/-- Method `getStats` from the pool service: per-status counts over the accounts,
the proxy total, queue depth with the literal `maxSize: 1000` from the
source, the concurrency pair, and the per-account summaries. -/
def getStats (p : PoolState) : PoolStats :=
  { accountsTotal := p.accounts.length
    healthy := (p.accounts.filter
      (fun a => decide ((p.healthOf a).status = .HEALTHY))).length
    probation := (p.accounts.filter
      (fun a => decide ((p.healthOf a).status = .PROBATION))).length
    cooldown := (p.accounts.filter
      (fun a => decide ((p.healthOf a).status = .COOLDOWN))).length
    disabled := (p.accounts.filter
      (fun a => decide ((p.healthOf a).status = .DISABLED))).length
    locked := (p.accounts.filter
      (fun a => decide ((p.healthOf a).status = .LOCKED))).length
    proxiesTotal := p.proxiesCount
    queueDepth := p.queueItems.length
    queueMaxSize := 1000
    concurrencyActive := p.activeOps
    concurrencyMax := p.maxConcurrency
    perAccount := p.accounts.map (fun a =>
      (a, (p.healthOf a).status, (p.healthOf a).requestCount,
        jsRound ((p.healthOf a).successRate * 100))) }

/-- A pool constructed with MAX_QUEUE_SIZE = 500. -/
def statsExamplePool : PoolState :=
  { accounts := [], healthOf := fun _ => initialHealth, proxiesCount := 0,
    queueItems := [], queueMaxSize := 500, activeOps := 0,
    maxConcurrency := 10 }

/-- C7 fails on the code: a pool whose queue was constructed with capacity
500 still reports `queue.maxSize = 1000` from `getStats`, so the reported
value is a fixed constant, not the configured capacity. -/
theorem stats_queue_max_size_hardcoded :
    (getStats statsExamplePool).queueMaxSize = 1000 ∧
    statsExamplePool.queueMaxSize = 500 ∧
    (getStats statsExamplePool).queueMaxSize ≠ statsExamplePool.queueMaxSize :=
  ⟨rfl, rfl, by decide⟩
